import Mathlib

/-!
Verification of the vendor-intelligence service (`main.py`, `database.py`,
`custom_datatypes.py`) against its natural-language specification.

The Python code is shallowly embedded: external collaborators (the SQL
driver `db.run`, `ast.literal_eval`, HTTP calls made with `requests`) are
modelled as oracle parameters, dynamically-typed Python values as the
inductive type `Py`, Python dicts (insertion-ordered in CPython) as
association lists in which updates happen in place and new keys are
appended at the end.  All definitions are executable; machine integers are
Lean `Int`/`Nat`.
-/

namespace VendorIntel

/-- A Python value, restricted to the shapes the embedded code inspects:
strings, integers, lists and tuples.  The driver result handed back by
`db.run` is such a value (natively, or as a textual encoding that the code
feeds through `ast.literal_eval`). -/
inductive Py where
  | pstr (s : String)
  | pint (n : Int)
  | plist (xs : List Py)
  | ptuple (xs : List Py)

/-- ASCII whitespace in the sense of Python's `str.strip()`. -/
def pyIsSpace (c : Char) : Bool :=
  c = ' ' || c = '\t' || c = '\n' || c = '\r' || c = '\x0b' || c = '\x0c'

/-- Python `s.strip()`: drop leading and trailing whitespace. -/
def pyStrip (s : String) : String :=
  ⟨((s.data.dropWhile pyIsSpace).reverse.dropWhile pyIsSpace).reverse⟩

/-- Python `s.lower()` (ASCII case folding, which is all the code's SQL
identifiers and names exercise). -/
def pyLower (s : String) : String := ⟨s.data.map Char.toLower⟩

/-- One decoded row of the grouped aggregation query in
`fetch_top_vendors` (main.py line 110): `SELECT LTRIM(RTRIM(SchdDeliveryPort)),
LTRIM(RTRIM(ITEM_DESCRIPTION)), VendorName, VendorCode, COUNT(*)`. -/
structure AggRow where
  port : String
  item : String
  vendorName : String
  vendorCode : String
  orderCount : Int
deriving DecidableEq

/-- The per-(port, vendor) running tally built by the aggregation loop of
`fetch_top_vendors` (main.py lines 127-150): the defaultdict initializer
`{"Items": [], "TotalCount": 0, "ItemCounts": {}, "VendorID": None,
"VendorName": None}`. -/
structure VendorEntry where
  items : List String
  totalCount : Int
  itemCounts : List (String × Int)
  vendorID : Option String
  vendorName : Option String
deriving DecidableEq

/-- The defaultdict default entry (main.py lines 127-133). -/
def emptyEntry : VendorEntry :=
  { items := [], totalCount := 0, itemCounts := [], vendorID := none, vendorName := none }

/-- Dict update `d[k] = d.get(k, 0) + c` on an insertion-ordered dict (main.py line
148): update in place when the key exists, append otherwise. -/
def updateCount (k : String) (c : Int) : List (String × Int) → List (String × Int)
  | [] => [(k, c)]
  | (k2, v) :: rest => if k2 = k then (k2, v + c) :: rest else (k2, v) :: updateCount k c rest

/-- Python `sum(d.values())` (main.py line 150). -/
def sumVals (l : List (String × Int)) : Int := (l.map Prod.snd).sum

/-- Processing one result row into the (port, vendor) entry it touches
(main.py lines 142-150): record the vendor id and name on first sight,
append the item, add the count into `ItemCounts[item]`, and recompute
`TotalCount` as the sum of the `ItemCounts` values. -/
def applyRow (r : AggRow) (e : VendorEntry) : VendorEntry :=
  let ic := updateCount r.item r.orderCount e.itemCounts
  { items := e.items ++ [r.item]
    totalCount := sumVals ic
    itemCounts := ic
    vendorID := if e.vendorID.isNone then some r.vendorCode else e.vendorID
    vendorName := if e.vendorName.isNone then some r.vendorName else e.vendorName }

/-- Insertion-ordered dict update with a defaultdict default: mutate the
value at `k` in place if present, else append `(k, f d)`. -/
def updateAssoc {α : Type} (k : String) (d : α) (f : α → α) :
    List (String × α) → List (String × α)
  | [] => [(k, f d)]
  | (k2, v) :: rest => if k2 = k then (k2, f v) :: rest else (k2, v) :: updateAssoc k d f rest

/-- Dict lookup on an association list (first match; keys are unique by
construction). -/
def lookupA {α : Type} (k : String) : List (String × α) → Option α
  | [] => none
  | (k2, v) :: rest => if k2 = k then some v else lookupA k rest

/-- Inner dict `port_vendor_data[port]`: a dict from vendor display name to entry. -/
abbrev VendorMap := List (String × VendorEntry)

/-- Outer dict `port_vendor_data`: a dict from port to its vendor dict. -/
abbrev PortMap := List (String × VendorMap)

/-- One iteration of the aggregation loop (main.py lines 136-150): locate
or create `port_vendor_data[row.port][row.vendorName]` and apply the row
to it.  The aggregate is keyed by port and vendor *display name*;
`VendorCode` is only recorded as data. -/
def stepRow (m : PortMap) (r : AggRow) : PortMap :=
  updateAssoc r.port [] (fun vm => updateAssoc r.vendorName emptyEntry (applyRow r) vm) m

/-- The whole aggregation loop over the decoded result rows. -/
def foldRows (rows : List AggRow) : PortMap := rows.foldl stepRow []

/-- Lookup `port_vendor_data[p][v]` as a partial operation. -/
def lookup2 (m : PortMap) (p v : String) : Option VendorEntry :=
  (lookupA p m).bind (lookupA v)

/-- Does a result row fall on the (port, vendor-display-name) pair?  This
is the key of the aggregation dict (main.py line 142:
`port_vendor_data[port][vendor]`, with `vendor = row["VendorName"]`). -/
def matches2 (p v : String) (r : AggRow) : Bool :=
  (r.port == p) && (r.vendorName == v)

/-- The §3 invariant as a predicate on the running dict. -/
def EntryInv (m : PortMap) : Prop :=
  ∀ p v e, lookup2 m p v = some e → e.totalCount = sumVals e.itemCounts

/-- The two result rows of the spec's no-double-counting scenario: the
same (port, item, vendor) combination with counts 3 and 4. -/
def c1row1 : AggRow := ⟨"Rotterdam", "Bolt", "Acme", "V001", 3⟩

def c1row2 : AggRow := ⟨"Rotterdam", "Bolt", "Acme", "V001", 4⟩

/-- Two result rows sharing (port, VendorName) but with different
VendorCode values (the GROUP BY includes VendorCode, so this arises). -/
def c10row1 : AggRow := ⟨"Rotterdam", "Bolt", "Acme", "X1", 3⟩

def c10row2 : AggRow := ⟨"Rotterdam", "Nut", "Acme", "X2", 4⟩

/-! ## The full `fetch_top_vendors` pipeline (main.py lines 44-174)

`db.run` is an oracle `String → Py` (query text to driver result) and
`ast.literal_eval` an oracle `String → Option Py` (`none` for a
`SyntaxError`/`ValueError`).  The function returns the final result list
together with the list of SQL query texts it issued, in order. -/

/-- The single quote character, used for the code's naive SQL escaping
`f"'{name}'"` (main.py lines 60, 78, 101-102). -/
def sq : String := String.singleton (Char.ofNat 39)

def sqlQuote (s : String) : String := sq ++ s ++ sq

def sqlInList (l : List String) : String := String.intercalate ", " (l.map sqlQuote)

def baseView : String := "Common.Tbl_Vw_Dm_GDB_Items_UniqueID_vendor_integrated"

/-- The item-id resolution lookup (main.py lines 61-65); whitespace inside
the f-string is normalized to single spaces. -/
def itemQuery (ids : List Int) : String :=
  "SELECT ITEM_ID, LTRIM(RTRIM(ITEM_DESCRIPTION)) FROM " ++ baseView ++
    " WHERE ITEM_ID IN (" ++ sqlInList (ids.map toString) ++ ")"

/-- The port-id resolution lookup (main.py lines 79-83). -/
def portQuery (ids : List Int) : String :=
  "SELECT SchdDeliveryPortID, LTRIM(RTRIM(SchdDeliveryPort)) FROM " ++ baseView ++
    " WHERE SchdDeliveryPortID IN (" ++ sqlInList (ids.map toString) ++ ")"

/-- The grouped aggregation query (main.py lines 104-115). -/
def mainQuery (itemsL portsL : List String) : String :=
  "SELECT LTRIM(RTRIM(SchdDeliveryPort)), LTRIM(RTRIM(ITEM_DESCRIPTION)), VendorName, VendorCode, COUNT(*) as OrderCount FROM "
    ++ baseView
    ++ " WHERE LOWER(LTRIM(RTRIM(ITEM_DESCRIPTION))) IN (" ++ sqlInList itemsL
    ++ ") AND LOWER(LTRIM(RTRIM(SchdDeliveryPort))) IN (" ++ sqlInList portsL
    ++ ") GROUP BY SchdDeliveryPort, ITEM_DESCRIPTION, VendorName, VendorCode ORDER BY SchdDeliveryPort, OrderCount DESC"

/-- The `isinstance(result, str)` branch (main.py lines 67-71, 85-90,
117-121): a string result goes through `ast.literal_eval`; on a parse
failure the code assigns `result = []`. -/
def decodeRaw (evalStr : String → Option Py) : Py → Py
  | .pstr s => (evalStr s).getD (Py.plist [])
  | v => v

/-- Check `isinstance(row, tuple) and len(row) == 2` (main.py line 73). -/
def isPair : Py → Bool
  | .ptuple [_, _] => true
  | _ => false

/-- Shape check `isinstance(result, list) and all(... for row in result)` (main.py
lines 73, 91): the shape check on a resolution result. -/
def isPairList : Py → Bool
  | .plist xs => xs.all isPair
  | _ => false

/-- Extract the 2-tuples from a (shape-checked) resolution result. -/
def toPairs : Py → List (Py × Py)
  | .plist xs => xs.filterMap (fun x => match x with | .ptuple [a, b] => some (a, b) | _ => none)
  | _ => []

/-- The dict comprehension `{row[0]: row[1].strip() for row in results}`
(main.py lines 75, 94).  A non-string second component raises
`AttributeError` on `.strip()`, which the enclosing `try` turns into an
overall empty result: modelled as `none`. -/
def stripPairs : List (Py × Py) → Option (List (Py × String))
  | [] => some []
  | (k, Py.pstr s) :: rest => (stripPairs rest).map (fun ps => (k, pyStrip s) :: ps)
  | _ => none

/-- Python `==` between a dict key from the driver and a caller-supplied
`int` id (only `int` keys can match an `int` id among the shapes of `Py`). -/
def pyIntEq : Py → Int → Bool
  | .pint m, n => m == n
  | _, _ => false

/-- Lookup `item_mapping[id]` where the mapping dict was built left to right with
later duplicates overwriting earlier ones: the last matching pair wins. -/
def lookupLast (ps : List (Py × String)) (id : Int) : Option String :=
  (ps.reverse.find? (fun kv => pyIntEq kv.1 id)).map Prod.snd

/-- Comprehension `[item_mapping[id] for id in item_ids if id in item_mapping]`
(main.py lines 76, 95): ids with no match are silently dropped. -/
def resolveNames (ps : List (Py × String)) (ids : List Int) : List String :=
  ids.filterMap (lookupLast ps)

/-- The decoded resolution result, or `none` when the shape check fails
(early `return []`, main.py lines 73-74 and 91-93) or a value fails
`.strip()` (caught by the enclosing `try`, same outcome). -/
def resolvePairs (evalStr : String → Option Py) (raw : Py) : Option (List (Py × String)) :=
  let r := decodeRaw evalStr raw
  if isPairList r then stripPairs (toPairs r) else none

/-- One id-resolution stage (`if item_ids:` / `if port_ids:`, main.py
lines 59-76 and 77-95).  Returns the resolved names (or `none` for the
early empty return) and the queries issued. -/
def resolveIds (db : String → Py) (evalStr : String → Option Py) (q : String)
    (ids : List Int) (fallback : List String) : Option (List String) × List String :=
  match ids with
  | [] => (some fallback, [])
  | _ :: _ =>
    match resolvePairs evalStr (db q) with
    | none => (none, [q])
    | some ps => (some (resolveNames ps ids), [q])

/-- A row of the aggregation result, decoded through `dict(zip(columns,
row))` and the five key accesses (main.py lines 122-123, 125, 136-141).
The row must be a tuple or list; entries beyond the fifth are dropped by
`zip`.  `none` marks the failures the source turns into an overall empty
result: a row with fewer than five fields (`KeyError` at one of the key
accesses), a non-iterable row (`TypeError` inside `zip`), a non-string
`ITEM_DESCRIPTION` (`TypeError` at the final `", ".join(item_names)`,
which runs whenever any row was aggregated), and a non-integer
`OrderCount` (`TypeError` at `ItemCounts.get(item, 0) + count`).  Rows
whose `SchdDeliveryPort`, `VendorName` or `VendorCode` is not a string
are processed by the source with the raw objects as dict keys; this
string-keyed embedding does not model them, and no theorem in this file
constrains the pipeline at such rows: the silent-empty theorem for this
query (claim C3, amended) restricts its arity hypotheses to `shortRow`
rows, non-iterable results, and unparseable strings, all of which fail in
the source as described. -/
def decodeAggRow (p : Py) : Option AggRow :=
  match p with
  | .ptuple (Py.pstr port :: Py.pstr item :: Py.pstr vn :: Py.pstr vc :: Py.pint c :: _) =>
      some ⟨port, item, vn, vc, c⟩
  | .plist (Py.pstr port :: Py.pstr item :: Py.pstr vn :: Py.pstr vc :: Py.pint c :: _) =>
      some ⟨port, item, vn, vc, c⟩
  | _ => none

def toAggRowsL : List Py → Option (List AggRow)
  | [] => some []
  | x :: rest =>
    match decodeAggRow x with
    | none => none
    | some r => (toAggRowsL rest).map (fun rs => r :: rs)

/-- The field list of a row value, or of the whole result value:
`some` for the two iterable shapes (list and tuple), `none` otherwise. -/
def rowFields : Py → Option (List Py)
  | .plist xs => some xs
  | .ptuple xs => some xs
  | _ => none

/-- A row that is a list or tuple with fewer than the five expected
columns.  On such a row `dict(zip(columns, row))` lacks at least one of
the five keys, so the set comprehension of main.py line 125 or the loop
of lines 136-141 raises `KeyError`, and the enclosing `try` returns `[]`. -/
def shortRow : Py → Bool
  | .plist xs => decide (xs.length < 5)
  | .ptuple xs => decide (xs.length < 5)
  | _ => false

/-- Decode the whole aggregation result (an iterable of rows); a
non-iterable result raises `TypeError` in the comprehension of main.py
line 123 and becomes an overall empty result (`none`). -/
def toAggRows : Py → Option (List AggRow)
  | .plist xs => toAggRowsL xs
  | .ptuple xs => toAggRowsL xs
  | _ => none

/-- Expression `set(row["ITEM_DESCRIPTION"] for row in result_dicts)` (main.py line
125), modelled as first-occurrence deduplication (CPython set iteration
order is arbitrary; no claim depends on this order). -/
def dedupFirst (l : List String) : List String :=
  l.foldl (fun acc x => if x ∈ acc then acc else acc ++ [x]) []

/-- Stable insertion for the descending sort: an element inserted from the
left goes before every element with a smaller-or-equal total, matching
Python's stable `sorted(..., reverse=True)` (main.py line 157). -/
def insertDesc (v : VendorEntry) : List VendorEntry → List VendorEntry
  | [] => [v]
  | w :: ws => if w.totalCount ≤ v.totalCount then v :: w :: ws else w :: insertDesc v ws

def sortDesc : List VendorEntry → List VendorEntry
  | [] => []
  | v :: vs => insertDesc v (sortDesc vs)

/-- The final record for one selected vendor (main.py lines 159-170). -/
structure OutRow where
  Port : String
  Item : String
  VendorName : Option String
  VendorID : Option String
  totalOrderCount : Int
  Description : String
deriving DecidableEq

def mkOut (port : String) (item_names : List String) (e : VendorEntry) : OutRow :=
  { Port := port
  , Item := String.intercalate ", " item_names
  , VendorName := e.vendorName
  , VendorID := e.vendorID
  , totalOrderCount := e.totalCount
  , Description := String.intercalate ", "
      (item_names.map (fun it =>
        "Total " ++ it ++ " ordered at " ++ port ++ ": " ++
          toString ((lookupA it e.itemCounts).getD 0))) }

/-- The ranking pass (main.py lines 151-171): for each port in insertion
order, sort its vendors by `TotalCount` descending (stably) and keep the
first two. -/
def rankRows (rows : List AggRow) : List OutRow :=
  let item_names := dedupFirst (rows.map AggRow.item)
  (foldRows rows).foldl (fun acc pv =>
    if pv.2 = [] then acc
    else acc ++ ((sortDesc (pv.2.map Prod.snd)).take 2).map (mkOut pv.1 item_names)) []

/-- Decode-and-rank for the main aggregation result (main.py lines
116-171); a decode failure is swallowed by the enclosing `try` into an
empty list. -/
def processMain (v : Py) : List OutRow :=
  match toAggRows v with
  | none => []
  | some rows => rankRows rows

/-- Function `fetch_top_vendors` (main.py lines 44-174).  `db` is the `db.run`
oracle, `evalStr` the `ast.literal_eval` oracle; `item_names0`/`port_names0`
model the optional name lists (with `None` as `[]`), `item_ids`/`port_ids`
the optional id lists.  Returns the result list and the SQL texts issued. -/
def fetch_top_vendors (db : String → Py) (evalStr : String → Option Py)
    (item_names0 port_names0 : List String) (item_ids port_ids : List Int) :
    List OutRow × List String :=
  let item_namesT := item_names0.map pyStrip
  let port_namesT := port_names0.map pyStrip
  match resolveIds db evalStr (itemQuery item_ids) item_ids item_namesT with
  | (none, log1) => ([], log1)
  | (some item_names1, log1) =>
    match resolveIds db evalStr (portQuery port_ids) port_ids port_namesT with
    | (none, log2) => ([], log1 ++ log2)
    | (some port_names1, log2) =>
      if item_names1 = [] ∨ port_names1 = [] then ([], log1 ++ log2)
      else
        let item_namesL := item_names1.map pyLower
        let port_namesL := port_names1.map pyLower
        let q := mainQuery item_namesL port_namesL
        (processMain (decodeRaw evalStr (db q)), log1 ++ log2 ++ [q])

/-! ## ConnectionManager: `SingletonSQLDatabase` (database.py lines
73-103) and the keep-alive probe (main.py lines 26-32) -/

/-- Sequential state of the singleton holder: the current handle (session
handles are numbered by creation), the next fresh number, and how many
times `_initialize_instance` has run.  Construction is modelled as
succeeding (`SQLDatabase.from_databricks` returning normally). -/
structure Mgr where
  handle? : Option Nat
  nextId : Nat
  constructions : Nat
deriving DecidableEq

/-- Method `SingletonSQLDatabase.get_instance()` seen by a single caller
(database.py lines 77-85, 101-103): return the existing instance, or
construct one when none exists.  Nothing in the class ever clears
`_instance`. -/
def getConnection (m : Mgr) : Nat × Mgr :=
  match m.handle? with
  | some h => (h, m)
  | none => (m.nextId, ⟨some m.nextId, m.nextId + 1, m.constructions + 1⟩)

/-- Function `keep_connection_alive` (main.py lines 26-32): fetch the singleton and
probe it with `db.run("SELECT 1")`; the first argument is the probe's
outcome.  A failing probe is caught and only logged (`logging.error`), so
the resulting state does not depend on it. -/
def keep_connection_alive (_probeOk : Bool) (m : Mgr) : Mgr :=
  (getConnection m).2

/-- Program counter of one thread executing `SingletonSQLDatabase.__new__`
(database.py lines 77-85): the unlocked check `if not cls._instance`, lock
acquisition, the double check under the lock, construction, lock release,
and the final `return cls._instance`. -/
inductive PC where
  | checkFast
  | acquire
  | checkSlow
  | construct
  | release
  | ret
  | done (res : Nat)
deriving DecidableEq

/-- Shared state for `n` concurrent callers of `__new__`: `cls._instance`,
the holder of `cls._lock`, the number of `_initialize_instance` calls, and
each thread's position. -/
structure Sys (n : Nat) where
  handle? : Option Nat
  lockHolder : Option (Fin n)
  constructions : Nat
  threads : Fin n → PC

/-- All callers start at the unlocked check, with no instance and no
construction yet. -/
def sysInit (n : Nat) : Sys n :=
  { handle? := none, lockHolder := none, constructions := 0,
    threads := fun _ => PC.checkFast }

/-- Interleaving semantics: one thread takes one step of `__new__`.
Construction publishes a fresh handle numbered by the construction
counter.  Only `build` writes `_instance`, only `acq`/`rel` touch the
lock, and nothing ever resets `_instance`, exactly as in the source. -/
inductive Step {n : Nat} : Sys n → Sys n → Prop where
  | fastSome (s : Sys n) (t : Fin n) (h : Nat) (ht : s.threads t = PC.checkFast)
      (hh : s.handle? = some h) :
      Step s { s with threads := Function.update s.threads t PC.ret }
  | fastNone (s : Sys n) (t : Fin n) (ht : s.threads t = PC.checkFast)
      (hh : s.handle? = none) :
      Step s { s with threads := Function.update s.threads t PC.acquire }
  | acq (s : Sys n) (t : Fin n) (ht : s.threads t = PC.acquire)
      (hl : s.lockHolder = none) :
      Step s { s with lockHolder := some t,
                      threads := Function.update s.threads t PC.checkSlow }
  | slowSome (s : Sys n) (t : Fin n) (h : Nat) (ht : s.threads t = PC.checkSlow)
      (hh : s.handle? = some h) :
      Step s { s with threads := Function.update s.threads t PC.release }
  | slowNone (s : Sys n) (t : Fin n) (ht : s.threads t = PC.checkSlow)
      (hh : s.handle? = none) :
      Step s { s with threads := Function.update s.threads t PC.construct }
  | build (s : Sys n) (t : Fin n) (ht : s.threads t = PC.construct) :
      Step s { s with handle? := some s.constructions,
                      constructions := s.constructions + 1,
                      threads := Function.update s.threads t PC.release }
  | rel (s : Sys n) (t : Fin n) (ht : s.threads t = PC.release) :
      Step s { s with lockHolder := none,
                      threads := Function.update s.threads t PC.ret }
  | retStep (s : Sys n) (t : Fin n) (h : Nat) (ht : s.threads t = PC.ret)
      (hh : s.handle? = some h) :
      Step s { s with threads := Function.update s.threads t (PC.done h) }

/-- Reachability from the initial state. -/
abbrev SysReachable (n : Nat) (s : Sys n) : Prop :=
  Relation.ReflTransGen Step (sysInit n) s

/-- Is this pc inside the lock-protected critical section? -/
def inCS : PC → Bool
  | PC.checkSlow => true
  | PC.construct => true
  | PC.release => true
  | _ => false

/-- The inductive invariant of the double-checked singleton: the handle is
created exactly once (and is handle number 0); the critical section is
owned by the lock holder; a thread about to construct sees no handle; a
finished thread returned the published handle. -/
structure SysInv {n : Nat} (s : Sys n) : Prop where
  handle_ctor : (s.handle? = none ∧ s.constructions = 0) ∨
    (s.handle? = some 0 ∧ s.constructions = 1)
  cs_lock : ∀ t, inCS (s.threads t) = true → s.lockHolder = some t
  construct_none : ∀ t, s.threads t = PC.construct → s.handle? = none
  done_handle : ∀ t r, s.threads t = PC.done r → s.handle? = some r

/-- A concrete two-thread interleaving: thread 0 runs the whole slow path
to completion, then thread 1 takes the fast path. -/
def c2s0 : Sys 2 := sysInit 2

def c2s1 : Sys 2 := { c2s0 with threads := Function.update c2s0.threads 0 PC.acquire }

def c2s2 : Sys 2 := { c2s1 with lockHolder := some 0,
                                threads := Function.update c2s1.threads 0 PC.checkSlow }

def c2s3 : Sys 2 := { c2s2 with threads := Function.update c2s2.threads 0 PC.construct }

def c2s4 : Sys 2 := { c2s3 with handle? := some c2s3.constructions,
                                constructions := c2s3.constructions + 1,
                                threads := Function.update c2s3.threads 0 PC.release }

def c2s5 : Sys 2 := { c2s4 with lockHolder := none,
                                threads := Function.update c2s4.threads 0 PC.ret }

def c2s6 : Sys 2 := { c2s5 with threads := Function.update c2s5.threads 0 (PC.done 0) }

def c2s7 : Sys 2 := { c2s6 with threads := Function.update c2s6.threads 1 PC.ret }

def c2s8 : Sys 2 := { c2s7 with threads := Function.update c2s7.threads 1 (PC.done 0) }

/-! ## Warehouse lifecycle (database.py lines 28-71) -/

/-- Outcome of one `requests` call: a response with an HTTP status code
and the decoded `state` field of its JSON body (absent for bodies without
one), or a raised transport exception. -/
inductive HttpResult where
  | resp (status : Nat) (state? : Option String)
  | exn
deriving DecidableEq

/-- Function `is_warehouse_running` (database.py lines 28-42), uncached: `True`
only for a 200 response whose `state` is `"RUNNING"`; any other status is
logged and falls through to `return False`; exceptions are caught and
also yield `False`.  The function has no error channel. -/
def is_warehouse_running (r : HttpResult) : Bool :=
  match r with
  | .resp status st => if status = 200 then st == some "RUNNING" else false
  | .exn => false

/-- The `@lru_cache(maxsize=1)` slot on `is_warehouse_running`. -/
structure WhCache where
  cached? : Option Bool
deriving DecidableEq

/-- The cached `is_warehouse_running()` call: a hit returns the cached
boolean without touching the network; a miss performs the status request
(outcome `statusR`) and stores the result. -/
def is_warehouse_running_cached (statusR : HttpResult) (c : WhCache) : Bool × WhCache :=
  match c.cached? with
  | some b => (b, c)
  | none => (is_warehouse_running statusR, ⟨some (is_warehouse_running statusR)⟩)

/-- Function `start_databricks_warehouse` (database.py lines 44-58): skip when the
cached status says running; otherwise POST the start request (outcome
`postR`); `cache_clear()` runs only on a literal 200; any other status or
an exception is logged and swallowed.  Returns the new cache state; there
is no error channel. -/
def start_databricks_warehouse (statusR postR : HttpResult) (c : WhCache) : WhCache :=
  let rc := is_warehouse_running_cached statusR c
  if rc.1 then rc.2
  else
    match postR with
    | .resp status _ => if status = 200 then ⟨none⟩ else rc.2
    | .exn => rc.2

/-- Function `stop_databricks_warehouse` (database.py lines 60-71): POST the stop
request; `cache_clear()` only on 200; errors logged and swallowed. -/
def stop_databricks_warehouse (postR : HttpResult) (c : WhCache) : WhCache :=
  match postR with
  | .resp status _ => if status = 200 then ⟨none⟩ else c
  | .exn => c

/-! ## Theorems -/

theorem bind_getD_nil {α : Type} (o : Option (List (String × α))) (w : String) :
    o.bind (lookupA w) = lookupA w (o.getD []) := by
  cases o <;> simp [lookupA]

theorem lookupA_updateAssoc {α : Type} (k k2 : String) (d : α) (f : α → α)
    (m : List (String × α)) :
    lookupA k2 (updateAssoc k d f m) =
      if k2 = k then some (f ((lookupA k m).getD d)) else lookupA k2 m := by
  induction m with
  | nil =>
    by_cases h : k2 = k
    · subst h; simp [updateAssoc, lookupA]
    · simp [updateAssoc, lookupA, h, Ne.symm h]
  | cons a rest ih =>
    obtain ⟨ka, va⟩ := a
    by_cases hak : ka = k
    · subst hak
      by_cases h2 : k2 = ka
      · subst h2; simp [updateAssoc, lookupA]
      · simp [updateAssoc, lookupA, h2, Ne.symm h2]
    · by_cases h2 : k2 = ka
      · subst h2
        simp [updateAssoc, lookupA, hak, Ne.symm hak, ih]
      · simp [updateAssoc, lookupA, hak, h2, Ne.symm h2, ih]

theorem lookup2_stepRow (m : PortMap) (r : AggRow) (p v : String) :
    lookup2 (stepRow m r) p v =
      if p = r.port ∧ v = r.vendorName
      then some (applyRow r ((lookup2 m p v).getD emptyEntry))
      else lookup2 m p v := by
  unfold lookup2 stepRow
  rw [lookupA_updateAssoc]
  by_cases hp : p = r.port
  · subst hp
    by_cases hv : v = r.vendorName
    · subst hv
      simp [lookupA_updateAssoc, bind_getD_nil]
    · simp [lookupA_updateAssoc, bind_getD_nil, hv]
  · simp [hp]

theorem sumVals_updateCount (k : String) (c : Int) (l : List (String × Int)) :
    sumVals (updateCount k c l) = sumVals l + c := by
  induction l with
  | nil => simp [updateCount, sumVals]
  | cons a rest ih =>
    obtain ⟨ka, va⟩ := a
    by_cases h : ka = k
    · simp [updateCount, h, sumVals]
      ring
    · simp [updateCount, h, sumVals] at ih ⊢
      omega

theorem applyRow_total (r : AggRow) (e : VendorEntry) :
    (applyRow r e).totalCount = sumVals (applyRow r e).itemCounts := rfl

theorem entryInv_step (m : PortMap) (r : AggRow) (_hm : EntryInv m) :
    EntryInv (stepRow m r) := by
  intro p v e he
  rw [lookup2_stepRow] at he
  by_cases h : p = r.port ∧ v = r.vendorName
  · rw [if_pos h] at he
    cases he
    exact applyRow_total r _
  · rw [if_neg h] at he
    exact _hm p v e he

theorem entryInv_foldl (rows : List AggRow) :
    ∀ m : PortMap, EntryInv m → EntryInv (rows.foldl stepRow m) := by
  induction rows with
  | nil => intro m hm; simpa using hm
  | cons r rest ih => intro m hm; exact ih _ (entryInv_step m r hm)

theorem foldRows_entryInv (rows : List AggRow) : EntryInv (foldRows rows) := by
  refine entryInv_foldl rows [] ?_
  intro p v e h
  simp [lookup2, lookupA] at h

/-- Claim C1: for every sequence of aggregation result rows folded by the
vendor ranking engine, the `totalCount` of each (port, vendor) aggregate
equals the sum of the values of its `perItemCount` map; in particular two
rows for the same (port, item, vendor) with counts 3 and 4 yield
`perItemCount` 7 for that item and `totalCount` 7, not 14 and not a
separately incremented total. -/
theorem c1_totalCount_eq_sum :
    (∀ (rows : List AggRow) (p v : String) (e : VendorEntry),
        lookup2 (foldRows rows) p v = some e → e.totalCount = sumVals e.itemCounts) ∧
    (lookup2 (foldRows [c1row1, c1row2]) "Rotterdam" "Acme").map
        (fun e => (lookupA "Bolt" e.itemCounts, e.totalCount)) = some (some 7, 7) := by
  constructor
  · intro rows p v e h
    exact foldRows_entryInv rows p v e h
  · decide

/-- Witness for C1: the invariant applied to the concrete two-row fold of
the no-double-counting scenario. -/
theorem c1_totalCount_eq_sum_witness :
    lookup2 (foldRows [c1row1, c1row2]) "Rotterdam" "Acme" =
      some ⟨["Bolt", "Bolt"], 7, [("Bolt", 7)], some "V001", some "Acme"⟩ ∧
    (VendorEntry.totalCount ⟨["Bolt", "Bolt"], 7, [("Bolt", 7)], some "V001", some "Acme"⟩ =
      sumVals (VendorEntry.itemCounts
        ⟨["Bolt", "Bolt"], 7, [("Bolt", 7)], some "V001", some "Acme"⟩)) :=
  ⟨by decide, c1_totalCount_eq_sum.1 [c1row1, c1row2] "Rotterdam" "Acme" _ (by decide)⟩

theorem applyRow_vendorID (r : AggRow) (e : VendorEntry) :
    (applyRow r e).vendorID = if e.vendorID.isNone then some r.vendorCode else e.vendorID := rfl

theorem applyRow_totalCount (r : AggRow) (e : VendorEntry) :
    (applyRow r e).totalCount = sumVals (updateCount r.item r.orderCount e.itemCounts) := rfl

theorem foldRows_keyed (rows : List AggRow) (p v : String) :
    (lookup2 (foldRows rows) p v).isSome = (rows.find? (matches2 p v)).isSome ∧
    ∀ e, lookup2 (foldRows rows) p v = some e →
      e.vendorID = (rows.find? (matches2 p v)).map AggRow.vendorCode ∧
      e.totalCount = ((rows.filter (matches2 p v)).map AggRow.orderCount).sum := by
  induction rows using List.reverseRecOn with
  | nil => simp [foldRows, lookup2, lookupA]
  | append_singleton l r ih =>
    have hfold : foldRows (l ++ [r]) = stepRow (foldRows l) r := by
      simp [foldRows, List.foldl_append]
    rw [hfold]
    rw [lookup2_stepRow]
    by_cases hc : p = r.port ∧ v = r.vendorName
    · have hm : matches2 p v r = true := by
        simp [matches2, hc.1, hc.2]
      have hfind : (l ++ [r]).find? (matches2 p v) = ((l.find? (matches2 p v)).or (some r)) := by
        rw [List.find?_append]
        simp [List.find?, hm]
      have hfilter : (l ++ [r]).filter (matches2 p v) = l.filter (matches2 p v) ++ [r] := by
        rw [List.filter_append]
        simp [List.filter, hm]
      rw [if_pos hc, hfind, hfilter]
      cases hold : lookup2 (foldRows l) p v with
      | some e' =>
        have hIsSome := ih.1
        rw [hold] at hIsSome
        cases hfl : l.find? (matches2 p v) with
        | none => rw [hfl] at hIsSome; simp at hIsSome
        | some r0 =>
          obtain ⟨hID, hTot⟩ := ih.2 e' hold
          have hInv : e'.totalCount = sumVals e'.itemCounts := foldRows_entryInv l p v e' hold
          constructor
          · simp
          · intro e he
            cases he
            constructor
            · rw [applyRow_vendorID]
              simp only [Option.getD_some]
              rw [hfl] at hID
              simp [hID, Option.or]
            · rw [applyRow_totalCount]
              simp only [Option.getD_some]
              rw [sumVals_updateCount, ← hInv, hTot]
              simp
      | none =>
        have hIsSome := ih.1
        rw [hold] at hIsSome
        cases hfl : l.find? (matches2 p v) with
        | some r0 => rw [hfl] at hIsSome; simp at hIsSome
        | none =>
          have hfilterl : l.filter (matches2 p v) = [] := by
            refine List.filter_eq_nil_iff.2 ?_
            intro a ha
            exact (List.find?_eq_none.1 hfl) a ha
          constructor
          · simp
          · intro e he
            cases he
            constructor
            · rw [applyRow_vendorID]
              simp [emptyEntry]
            · rw [applyRow_totalCount]
              simp [emptyEntry, updateCount, sumVals, hfilterl]
    · have hm : matches2 p v r = false := by
        rw [Bool.eq_false_iff]
        intro hmt
        simp only [matches2, Bool.and_eq_true, beq_iff_eq] at hmt
        exact hc ⟨hmt.1.symm, hmt.2.symm⟩
      have hfind : (l ++ [r]).find? (matches2 p v) = l.find? (matches2 p v) := by
        rw [List.find?_append]
        simp [List.find?, hm]
      have hfilter : (l ++ [r]).filter (matches2 p v) = l.filter (matches2 p v) := by
        rw [List.filter_append]
        simp [List.filter, hm]
      rw [if_neg hc, hfind, hfilter]
      exact ih

/-- Claim C10: vendor aggregates are keyed by vendor display name alone,
not by vendor code: rows sharing (port, VendorName) but carrying
different VendorCode values are merged into a single aggregate whose
counts are summed across the codes, and whose reported VendorID is the
code of the first such row encountered. -/
theorem c10_keyed_by_vendor_name :
    (∀ (rows : List AggRow) (p v : String) (e : VendorEntry),
        lookup2 (foldRows rows) p v = some e →
        e.vendorID = (rows.find? (matches2 p v)).map AggRow.vendorCode ∧
        e.totalCount = ((rows.filter (matches2 p v)).map AggRow.orderCount).sum) ∧
    (lookupA "Rotterdam" (foldRows [c10row1, c10row2])).map List.length = some 1 ∧
    (lookup2 (foldRows [c10row1, c10row2]) "Rotterdam" "Acme").map
        (fun e => (e.vendorID, e.totalCount)) = some (some "X1", 7) := by
  refine ⟨fun rows p v e h => (foldRows_keyed rows p v).2 e h, by decide, by decide⟩

/-- Witness for C10: the general statement applied to the concrete
two-code merge scenario. -/
theorem c10_keyed_by_vendor_name_witness :
    VendorEntry.vendorID
        ⟨["Bolt", "Nut"], 7, [("Bolt", 3), ("Nut", 4)], some "X1", some "Acme"⟩ =
      ([c10row1, c10row2].find? (matches2 "Rotterdam" "Acme")).map AggRow.vendorCode ∧
    VendorEntry.totalCount
        ⟨["Bolt", "Nut"], 7, [("Bolt", 3), ("Nut", 4)], some "X1", some "Acme"⟩ =
      (([c10row1, c10row2].filter (matches2 "Rotterdam" "Acme")).map AggRow.orderCount).sum :=
  c10_keyed_by_vendor_name.1 [c10row1, c10row2] "Rotterdam" "Acme" _ (by decide)

/-- Claim C5: for items `["bolt", "BOLT "]` and ports `["Rotterdam"]`,
normalization (trim then lowercase) collapses the items to the single key
`"bolt"`, and aggregating three rows (vendor A ×5, vendor B ×3, vendor C
×1, all at Rotterdam/bolt) with top-2-per-port returns exactly vendor A
with total 5 followed by vendor B with total 3, because vendors of each
port are sorted by total descending and truncated to the first two.  The
model's `VendorName` field is an `Option` because the source initializes
it to `None` and fills it on first sight. -/
theorem c5_end_to_end (db : String → Py) (evalStr : String → Option Py)
    (hdb : db (mainQuery ["bolt", "bolt"] ["rotterdam"]) = Py.plist
      [Py.ptuple [Py.pstr "Rotterdam", Py.pstr "bolt", Py.pstr "A", Py.pstr "VA", Py.pint 5],
       Py.ptuple [Py.pstr "Rotterdam", Py.pstr "bolt", Py.pstr "B", Py.pstr "VB", Py.pint 3],
       Py.ptuple [Py.pstr "Rotterdam", Py.pstr "bolt", Py.pstr "C", Py.pstr "VC", Py.pint 1]]) :
    (["bolt", "BOLT "].map (fun s => pyLower (pyStrip s))).dedup = ["bolt"] ∧
    (fetch_top_vendors db evalStr ["bolt", "BOLT "] ["Rotterdam"] [] []).1.map
        (fun o => (o.Port, o.VendorName, o.totalOrderCount)) =
      [("Rotterdam", some "A", 5), ("Rotterdam", some "B", 3)] := by
  constructor
  · decide
  · have h1 : (fetch_top_vendors db evalStr ["bolt", "BOLT "] ["Rotterdam"] [] []).1
        = processMain (decodeRaw evalStr (db (mainQuery ["bolt", "bolt"] ["rotterdam"]))) := rfl
    have h2 : ∀ xs, decodeRaw evalStr (Py.plist xs) = Py.plist xs := fun _ => rfl
    rw [h1, hdb, h2]
    decide

/-- Witness for C5: the theorem applied to a concrete database oracle
returning exactly the three scenario rows. -/
theorem c5_end_to_end_witness :
    (["bolt", "BOLT "].map (fun s => pyLower (pyStrip s))).dedup = ["bolt"] ∧
    (fetch_top_vendors
        (fun q => if q = mainQuery ["bolt", "bolt"] ["rotterdam"] then Py.plist
          [Py.ptuple [Py.pstr "Rotterdam", Py.pstr "bolt", Py.pstr "A", Py.pstr "VA", Py.pint 5],
           Py.ptuple [Py.pstr "Rotterdam", Py.pstr "bolt", Py.pstr "B", Py.pstr "VB", Py.pint 3],
           Py.ptuple [Py.pstr "Rotterdam", Py.pstr "bolt", Py.pstr "C", Py.pstr "VC", Py.pint 1]]
          else Py.plist [])
        (fun _ => none) ["bolt", "BOLT "] ["Rotterdam"] [] []).1.map
        (fun o => (o.Port, o.VendorName, o.totalOrderCount)) =
      [("Rotterdam", some "A", 5), ("Rotterdam", some "B", 3)] :=
  c5_end_to_end _ (fun _ => none) (if_pos rfl)

/-- Claim C6: whenever the normalized item-name list or the normalized
port-name list is empty, `fetch_top_vendors` (names path) returns an
empty result without issuing any SQL query — the issued-query log is
empty — and this is an ordinary return value, not an error. -/
theorem c6_empty_short_circuit (db : String → Py) (evalStr : String → Option Py)
    (item_names0 port_names0 : List String)
    (h : item_names0.map pyStrip = [] ∨ port_names0.map pyStrip = []) :
    fetch_top_vendors db evalStr item_names0 port_names0 [] [] = ([], []) := by
  simp only [fetch_top_vendors, resolveIds]
  rw [if_pos h]
  rfl

/-- Witness for C6: the short circuit on `([], ["Rotterdam"])`. -/
theorem c6_empty_short_circuit_witness :
    fetch_top_vendors (fun _ => Py.plist []) (fun _ => none) [] ["Rotterdam"] [] [] = ([], []) :=
  c6_empty_short_circuit (fun _ => Py.plist []) (fun _ => none) [] ["Rotterdam"]
    (Or.inl rfl)

/-- Counterexample to claim C3.  The claim says the executor fails with
`MalformedResultError` whenever decoding yields a shape that does not
match the expected column arity, and never returns an empty result as
though the query had matched zero rows.  In the code there is no
`MalformedResultError` at all: a resolution result whose row is not a
2-tuple makes `fetch_top_vendors` return the plain empty list (main.py
lines 73-74), indistinguishable from a successful empty query, and an
unparseable string result is coerced to the empty row list (lines 69-71);
both are exhibited here as ordinary `= []` returns of the total model. -/
theorem c3_counterexample :
    (fetch_top_vendors (fun _ => Py.plist [Py.pint 5]) (fun _ => none)
        ["bolt"] ["rotterdam"] [1] []).1 = [] ∧
    (fetch_top_vendors (fun _ => Py.pstr "no such list") (fun _ => none)
        ["bolt"] ["rotterdam"] [1] []).1 = [] :=
  ⟨rfl, rfl⟩

theorem toAggRows_rowFields (v : Py) :
    toAggRows v = match rowFields v with
      | some xs => toAggRowsL xs
      | none => none := by
  cases v <;> rfl

theorem decodeAggRow_short (xs : List Py) (h : xs.length < 5) :
    decodeAggRow (Py.ptuple xs) = none ∧ decodeAggRow (Py.plist xs) = none := by
  rcases xs with _ | ⟨a, _ | ⟨b, _ | ⟨c, _ | ⟨d, rest⟩⟩⟩⟩
  · exact ⟨rfl, rfl⟩
  · cases a <;> exact ⟨rfl, rfl⟩
  · cases a <;> cases b <;> exact ⟨rfl, rfl⟩
  · cases a <;> cases b <;> cases c <;> exact ⟨rfl, rfl⟩
  · cases rest with
    | nil => cases a <;> cases b <;> cases c <;> cases d <;> exact ⟨rfl, rfl⟩
    | cons e rest2 => simp only [List.length_cons] at h; omega

theorem toAggRowsL_none_of_mem (xs : List Py) (x : Py) (hx : x ∈ xs)
    (hd : decodeAggRow x = none) : toAggRowsL xs = none := by
  induction xs with
  | nil => cases hx
  | cons y ys ih =>
    cases hx with
    | head => simp [toAggRowsL, hd]
    | tail _ hmem =>
      simp only [toAggRowsL]
      cases hy : decodeAggRow y with
      | none => rfl
      | some r => rw [ih hmem]; rfl

/-- Claim C3 as amended: when decoding of a driver result fails to parse
or yields a shape that does not match the expected column arity, the
executor silently returns an empty result — there is no
`MalformedResultError`.  The four parts: an id-resolution result failing
the 2-tuple shape check or the `.strip()` call (`resolvePairs = none`,
the early `return []` of main.py lines 73-74 / the caught
`AttributeError`); an aggregation result that is not a list or tuple of
rows (`TypeError` iterating it, or `KeyError` on the one-key dicts its
characters produce when it is a string); an aggregation row with fewer
than the five expected columns (`KeyError` at one of the five key
accesses); and a string aggregation result that `ast.literal_eval`
rejects (assigned `result = []`). -/
theorem c3_amended_silently_empty :
    (∀ (db : String → Py) (evalStr : String → Option Py)
        (in0 pn0 : List String) (ids pids : List Int),
        ids ≠ [] →
        resolvePairs evalStr (db (itemQuery ids)) = none →
        (fetch_top_vendors db evalStr in0 pn0 ids pids).1 = []) ∧
    (∀ (db : String → Py) (evalStr : String → Option Py) (in0 pn0 : List String),
        in0.map pyStrip ≠ [] → pn0.map pyStrip ≠ [] →
        rowFields (decodeRaw evalStr (db (mainQuery ((in0.map pyStrip).map pyLower)
          ((pn0.map pyStrip).map pyLower)))) = none →
        (fetch_top_vendors db evalStr in0 pn0 [] []).1 = []) ∧
    (∀ (db : String → Py) (evalStr : String → Option Py) (in0 pn0 : List String)
        (xs : List Py) (x : Py),
        in0.map pyStrip ≠ [] → pn0.map pyStrip ≠ [] →
        rowFields (decodeRaw evalStr (db (mainQuery ((in0.map pyStrip).map pyLower)
          ((pn0.map pyStrip).map pyLower)))) = some xs →
        x ∈ xs → shortRow x = true →
        (fetch_top_vendors db evalStr in0 pn0 [] []).1 = []) ∧
    (∀ (db : String → Py) (evalStr : String → Option Py) (in0 pn0 : List String)
        (s : String),
        in0.map pyStrip ≠ [] → pn0.map pyStrip ≠ [] →
        db (mainQuery ((in0.map pyStrip).map pyLower) ((pn0.map pyStrip).map pyLower)) =
          Py.pstr s →
        evalStr s = none →
        (fetch_top_vendors db evalStr in0 pn0 [] []).1 = []) := by
  refine ⟨?_, ?_, ?_, ?_⟩
  · intro db evalStr in0 pn0 ids pids hne hpairs
    cases ids with
    | nil => exact absurd rfl hne
    | cons i is => simp [fetch_top_vendors, resolveIds, hpairs]
  · intro db evalStr in0 pn0 h1 h2 hrf
    have hnone : toAggRows (decodeRaw evalStr (db (mainQuery ((in0.map pyStrip).map pyLower)
        ((pn0.map pyStrip).map pyLower)))) = none := by
      rw [toAggRows_rowFields, hrf]
    simp only [fetch_top_vendors, resolveIds]
    rw [if_neg (not_or.2 ⟨h1, h2⟩)]
    simp only [processMain]
    rw [hnone]
  · intro db evalStr in0 pn0 xs x h1 h2 hrf hx hshort
    have hd : decodeAggRow x = none := by
      cases x with
      | plist ys =>
        have hlen : ys.length < 5 := by simpa [shortRow] using hshort
        exact (decodeAggRow_short ys hlen).2
      | ptuple ys =>
        have hlen : ys.length < 5 := by simpa [shortRow] using hshort
        exact (decodeAggRow_short ys hlen).1
      | pstr s => simp [shortRow] at hshort
      | pint n => simp [shortRow] at hshort
    have hnone : toAggRows (decodeRaw evalStr (db (mainQuery ((in0.map pyStrip).map pyLower)
        ((pn0.map pyStrip).map pyLower)))) = none := by
      rw [toAggRows_rowFields, hrf]
      exact toAggRowsL_none_of_mem xs x hx hd
    simp only [fetch_top_vendors, resolveIds]
    rw [if_neg (not_or.2 ⟨h1, h2⟩)]
    simp only [processMain]
    rw [hnone]
  · intro db evalStr in0 pn0 s h1 h2 hdb hs
    have hplist : decodeRaw evalStr (db (mainQuery ((in0.map pyStrip).map pyLower)
        ((pn0.map pyStrip).map pyLower))) = Py.plist [] := by
      rw [hdb]
      simp [decodeRaw, hs]
    simp only [fetch_top_vendors, resolveIds]
    rw [if_neg (not_or.2 ⟨h1, h2⟩)]
    rw [hplist]
    rfl

/-- Witness for the amended C3: all four silent-empty paths at concrete
inputs — a lookup row that is not a 2-tuple, a non-list aggregation
result, a one-field aggregation row, and an unparseable string result. -/
theorem c3_amended_silently_empty_witness :
    (fetch_top_vendors (fun _ => Py.plist [Py.pint 5]) (fun _ => none)
        [] [] [7] []).1 = [] ∧
    (fetch_top_vendors (fun _ => Py.pint 0) (fun _ => none)
        ["bolt"] ["rotterdam"] [] []).1 = [] ∧
    (fetch_top_vendors (fun _ => Py.plist [Py.ptuple [Py.pstr "x"]]) (fun _ => none)
        ["bolt"] ["rotterdam"] [] []).1 = [] ∧
    (fetch_top_vendors (fun _ => Py.pstr "broken") (fun _ => none)
        ["bolt"] ["rotterdam"] [] []).1 = [] :=
  ⟨c3_amended_silently_empty.1 (fun _ => Py.plist [Py.pint 5]) (fun _ => none)
      [] [] [7] [] (by simp) rfl,
   c3_amended_silently_empty.2.1 (fun _ => Py.pint 0) (fun _ => none)
      ["bolt"] ["rotterdam"] (by decide) (by decide) rfl,
   c3_amended_silently_empty.2.2.1 (fun _ => Py.plist [Py.ptuple [Py.pstr "x"]])
      (fun _ => none) ["bolt"] ["rotterdam"] [Py.ptuple [Py.pstr "x"]]
      (Py.ptuple [Py.pstr "x"]) (by decide) (by decide) rfl
      (List.mem_cons_self _ _) rfl,
   c3_amended_silently_empty.2.2.2 (fun _ => Py.pstr "broken") (fun _ => none)
      ["bolt"] ["rotterdam"] "broken" (by decide) (by decide) rfl rfl⟩

theorem stripPairs_mem (l : List (Py × Py)) (ps : List (Py × String))
    (h : stripPairs l = some ps) :
    ∀ x ∈ ps, ∃ k s, (k, Py.pstr s) ∈ l ∧ x = (k, pyStrip s) := by
  induction l generalizing ps with
  | nil =>
    simp only [stripPairs, Option.some_inj] at h
    subst h
    simp
  | cons a rest ih =>
    obtain ⟨k2, val⟩ := a
    cases val with
    | pstr s =>
      simp only [stripPairs] at h
      cases hrest : stripPairs rest with
      | none => rw [hrest] at h; simp at h
      | some ps' =>
        rw [hrest] at h
        simp only [Option.map_some', Option.some.injEq] at h
        subst h
        intro x hx
        cases hx with
        | head => exact ⟨k2, s, List.mem_cons_self _ _, rfl⟩
        | tail _ hx2 =>
          obtain ⟨k, s2, hmem, hxe⟩ := ih ps' hrest x hx2
          exact ⟨k, s2, List.mem_cons_of_mem _ hmem, hxe⟩
    | pint n => simp [stripPairs] at h
    | plist xs => simp [stripPairs] at h
    | ptuple xs => simp [stripPairs] at h

theorem resolveNames_nil_of_unmatched (ps : List (Py × String)) (ids : List Int)
    (h : ∀ id ∈ ids, lookupLast ps id = none) : resolveNames ps ids = [] := by
  induction ids with
  | nil => rfl
  | cons i is ih =>
    simp only [resolveNames, List.filterMap_cons]
    rw [h i (List.mem_cons_self _ _)]
    exact ih (fun id hid => h id (List.mem_cons_of_mem _ hid))

/-- Claim C7: the identifier resolver returns only the trimmed names of
identifiers that matched the lookup (each returned name is the stripped
string of a looked-up pair whose key equals some supplied id);
identifiers with no match are dropped without raising; the result is an
empty sequence when none resolve; and `fetch_top_vendors` fed only
unresolved ids returns an empty sequence. -/
theorem c7_unresolved_ids :
    (∀ (l : List (Py × Py)) (ps : List (Py × String)) (ids : List Int) (name : String),
        stripPairs l = some ps → name ∈ resolveNames ps ids →
        ∃ k s, (k, Py.pstr s) ∈ l ∧ name = pyStrip s ∧ ∃ id ∈ ids, pyIntEq k id = true) ∧
    (∀ (ps : List (Py × String)) (ids : List Int),
        (∀ id ∈ ids, lookupLast ps id = none) → resolveNames ps ids = []) ∧
    (∀ (db : String → Py) (evalStr : String → Option Py)
        (in0 pn0 : List String) (ids pids : List Int) (ps : List (Py × String)),
        ids ≠ [] →
        resolvePairs evalStr (db (itemQuery ids)) = some ps →
        resolveNames ps ids = [] →
        (fetch_top_vendors db evalStr in0 pn0 ids pids).1 = []) := by
  refine ⟨?_, resolveNames_nil_of_unmatched, ?_⟩
  · intro l ps ids name hstrip hmem
    simp only [resolveNames] at hmem
    obtain ⟨id, hid, hlook⟩ := List.mem_filterMap.1 hmem
    unfold lookupLast at hlook
    cases hfind : (ps.reverse.find? (fun kv => pyIntEq kv.1 id)) with
    | none => rw [hfind] at hlook; simp at hlook
    | some kv =>
      rw [hfind] at hlook
      simp only [Option.map_some', Option.some.injEq] at hlook
      have hp := List.find?_some hfind
      have hkv : kv ∈ ps.reverse := List.mem_of_find?_eq_some hfind
      rw [List.mem_reverse] at hkv
      obtain ⟨k, s, hmem2, hxe⟩ := stripPairs_mem l ps hstrip kv hkv
      refine ⟨k, s, hmem2, ?_, id, hid, ?_⟩
      · rw [← hlook, hxe]
      · rw [hxe] at hp
        simpa using hp
  · intro db evalStr in0 pn0 ids pids ps hne hpairs hresolved
    cases ids with
    | nil => exact absurd rfl hne
    | cons i is =>
      simp only [fetch_top_vendors, resolveIds, hpairs, hresolved]
      cases pids with
      | nil => rfl
      | cons p1 prest =>
        cases hp2 : resolvePairs evalStr (db (portQuery (p1 :: prest))) with
        | none => rfl
        | some ps2 => rfl

/-- Witness for C7: `resolveItemNames([999])` against an empty lookup
result, and the resulting empty ranking. -/
theorem c7_unresolved_ids_witness :
    resolveNames [] [999] = [] ∧
    (fetch_top_vendors (fun _ => Py.plist []) (fun _ => none) [] [] [999] []).1 = [] :=
  ⟨c7_unresolved_ids.2.1 [] [999] (fun _ _ => rfl),
   c7_unresolved_ids.2.2 (fun _ => Py.plist []) (fun _ => none) [] [] [999] [] []
     (by decide) rfl rfl⟩

theorem sysInv_init (n : Nat) : SysInv (sysInit n) := by
  constructor
  · exact Or.inl ⟨rfl, rfl⟩
  · intro t ht; simp [sysInit, inCS] at ht
  · intro t ht; simp [sysInit] at ht
  · intro t r ht; simp [sysInit] at ht

theorem sysInv_step {n : Nat} {s s' : Sys n} (hs : SysInv s) (hstep : Step s s') :
    SysInv s' := by
  cases hstep with
  | fastSome t h ht hh =>
    refine ⟨hs.handle_ctor, ?_, ?_, ?_⟩
    · intro t2 h2
      by_cases he : t2 = t
      · subst he; simp only [Function.update_same] at h2; simp [inCS] at h2
      · simp only [Function.update_noteq he] at h2
        exact hs.cs_lock t2 h2
    · intro t2 h2
      by_cases he : t2 = t
      · subst he; simp only [Function.update_same] at h2; exact PC.noConfusion h2
      · simp only [Function.update_noteq he] at h2
        exact hs.construct_none t2 h2
    · intro t2 r h2
      by_cases he : t2 = t
      · subst he; simp only [Function.update_same] at h2; exact PC.noConfusion h2
      · simp only [Function.update_noteq he] at h2
        exact hs.done_handle t2 r h2
  | fastNone t ht hh =>
    refine ⟨hs.handle_ctor, ?_, ?_, ?_⟩
    · intro t2 h2
      by_cases he : t2 = t
      · subst he; simp only [Function.update_same] at h2; simp [inCS] at h2
      · simp only [Function.update_noteq he] at h2
        exact hs.cs_lock t2 h2
    · intro t2 h2
      by_cases he : t2 = t
      · subst he; simp only [Function.update_same] at h2; exact PC.noConfusion h2
      · simp only [Function.update_noteq he] at h2
        exact hs.construct_none t2 h2
    · intro t2 r h2
      by_cases he : t2 = t
      · subst he; simp only [Function.update_same] at h2; exact PC.noConfusion h2
      · simp only [Function.update_noteq he] at h2
        exact hs.done_handle t2 r h2
  | acq t ht hl =>
    refine ⟨hs.handle_ctor, ?_, ?_, ?_⟩
    · intro t2 h2
      by_cases he : t2 = t
      · subst he; rfl
      · simp only [Function.update_noteq he] at h2
        have := hs.cs_lock t2 h2
        rw [hl] at this
        exact Option.noConfusion this
    · intro t2 h2
      by_cases he : t2 = t
      · subst he; simp only [Function.update_same] at h2; exact PC.noConfusion h2
      · simp only [Function.update_noteq he] at h2
        exact hs.construct_none t2 h2
    · intro t2 r h2
      by_cases he : t2 = t
      · subst he; simp only [Function.update_same] at h2; exact PC.noConfusion h2
      · simp only [Function.update_noteq he] at h2
        exact hs.done_handle t2 r h2
  | slowSome t h ht hh =>
    refine ⟨hs.handle_ctor, ?_, ?_, ?_⟩
    · intro t2 h2
      by_cases he : t2 = t
      · subst he
        exact hs.cs_lock t2 (by rw [ht]; rfl)
      · simp only [Function.update_noteq he] at h2
        exact hs.cs_lock t2 h2
    · intro t2 h2
      by_cases he : t2 = t
      · subst he; simp only [Function.update_same] at h2; exact PC.noConfusion h2
      · simp only [Function.update_noteq he] at h2
        exact hs.construct_none t2 h2
    · intro t2 r h2
      by_cases he : t2 = t
      · subst he; simp only [Function.update_same] at h2; exact PC.noConfusion h2
      · simp only [Function.update_noteq he] at h2
        exact hs.done_handle t2 r h2
  | slowNone t ht hh =>
    refine ⟨hs.handle_ctor, ?_, ?_, ?_⟩
    · intro t2 h2
      by_cases he : t2 = t
      · subst he
        exact hs.cs_lock t2 (by rw [ht]; rfl)
      · simp only [Function.update_noteq he] at h2
        exact hs.cs_lock t2 h2
    · intro t2 h2
      exact hh
    · intro t2 r h2
      by_cases he : t2 = t
      · subst he; simp only [Function.update_same] at h2; exact PC.noConfusion h2
      · simp only [Function.update_noteq he] at h2
        exact hs.done_handle t2 r h2
  | build t ht =>
    have hnone : s.handle? = none := hs.construct_none t ht
    refine ⟨?_, ?_, ?_, ?_⟩
    · rcases hs.handle_ctor with ⟨_, hc0⟩ | ⟨hsome, _⟩
      · refine Or.inr ?_
        constructor
        · show some s.constructions = some 0
          rw [hc0]
        · show s.constructions + 1 = 1
          rw [hc0]
      · rw [hnone] at hsome
        exact Option.noConfusion hsome
    · intro t2 h2
      by_cases he : t2 = t
      · subst he
        exact hs.cs_lock t2 (by rw [ht]; rfl)
      · simp only [Function.update_noteq he] at h2
        exact hs.cs_lock t2 h2
    · intro t2 h2
      by_cases he : t2 = t
      · subst he; simp only [Function.update_same] at h2; exact PC.noConfusion h2
      · simp only [Function.update_noteq he] at h2
        have := hs.cs_lock t2 (by rw [h2]; rfl)
        have h3 := hs.cs_lock t (by rw [ht]; rfl)
        rw [this] at h3
        exact absurd (Option.some_inj.1 h3) he
    · intro t2 r h2
      by_cases he : t2 = t
      · subst he; simp only [Function.update_same] at h2; exact PC.noConfusion h2
      · simp only [Function.update_noteq he] at h2
        have hsome := hs.done_handle t2 r h2
        rw [hnone] at hsome
        exact Option.noConfusion hsome
  | rel t ht =>
    refine ⟨hs.handle_ctor, ?_, ?_, ?_⟩
    · intro t2 h2
      by_cases he : t2 = t
      · subst he; simp only [Function.update_same] at h2; simp [inCS] at h2
      · simp only [Function.update_noteq he] at h2
        have := hs.cs_lock t2 h2
        have h3 := hs.cs_lock t (by rw [ht]; rfl)
        rw [this] at h3
        exact absurd (Option.some_inj.1 h3) he
    · intro t2 h2
      by_cases he : t2 = t
      · subst he; simp only [Function.update_same] at h2; exact PC.noConfusion h2
      · simp only [Function.update_noteq he] at h2
        exact hs.construct_none t2 h2
    · intro t2 r h2
      by_cases he : t2 = t
      · subst he; simp only [Function.update_same] at h2; exact PC.noConfusion h2
      · simp only [Function.update_noteq he] at h2
        exact hs.done_handle t2 r h2
  | retStep t h ht hh =>
    refine ⟨hs.handle_ctor, ?_, ?_, ?_⟩
    · intro t2 h2
      by_cases he : t2 = t
      · subst he; simp only [Function.update_same] at h2; simp [inCS] at h2
      · simp only [Function.update_noteq he] at h2
        exact hs.cs_lock t2 h2
    · intro t2 h2
      by_cases he : t2 = t
      · subst he; simp only [Function.update_same] at h2; exact PC.noConfusion h2
      · simp only [Function.update_noteq he] at h2
        exact hs.construct_none t2 h2
    · intro t2 r h2
      by_cases he : t2 = t
      · subst he
        simp only [Function.update_same] at h2
        cases h2
        exact hh
      · simp only [Function.update_noteq he] at h2
        exact hs.done_handle t2 r h2

theorem sysInv_reachable {n : Nat} {s : Sys n} (h : SysReachable n s) : SysInv s := by
  induction h with
  | refl => exact sysInv_init n
  | tail _hsteps hstep ih => exact sysInv_step ih hstep

/-- Claim C2: when no session handle exists, N concurrent
`getConnection()` calls (threads running `SingletonSQLDatabase.__new__`
under the interleaving semantics `Step`) cause exactly one underlying
handle construction, and all N callers receive the same handle. -/
theorem c2_single_construction {n : Nat} (s : Sys n) (hn : 0 < n)
    (hr : SysReachable n s) (hdone : ∀ t, ∃ r, s.threads t = PC.done r) :
    s.constructions = 1 ∧
    ∀ t1 t2 r1 r2, s.threads t1 = PC.done r1 → s.threads t2 = PC.done r2 → r1 = r2 := by
  have hinv := sysInv_reachable hr
  obtain ⟨r0, hr0⟩ := hdone ⟨0, hn⟩
  have hh0 := hinv.done_handle _ r0 hr0
  constructor
  · rcases hinv.handle_ctor with ⟨hnone, _⟩ | ⟨_, hc⟩
    · rw [hnone] at hh0
      exact Option.noConfusion hh0
    · exact hc
  · intro t1 t2 r1 r2 h1 h2
    have e1 := hinv.done_handle t1 r1 h1
    have e2 := hinv.done_handle t2 r2 h2
    rw [e1] at e2
    exact Option.some_inj.1 e2

theorem c2_trace : SysReachable 2 c2s8 := by
  have h1 : Step c2s0 c2s1 := Step.fastNone c2s0 0 rfl rfl
  have h2 : Step c2s1 c2s2 := Step.acq c2s1 0 rfl rfl
  have h3 : Step c2s2 c2s3 := Step.slowNone c2s2 0 rfl rfl
  have h4 : Step c2s3 c2s4 := Step.build c2s3 0 rfl
  have h5 : Step c2s4 c2s5 := Step.rel c2s4 0 rfl
  have h6 : Step c2s5 c2s6 := Step.retStep c2s5 0 0 rfl rfl
  have h7 : Step c2s6 c2s7 := Step.fastSome c2s6 1 0 rfl rfl
  have h8 : Step c2s7 c2s8 := Step.retStep c2s7 1 0 rfl rfl
  exact .tail (.tail (.tail (.tail (.tail (.tail (.tail (.single h1) h2) h3) h4) h5) h6) h7) h8

/-- Witness for C2: a complete interleaving of two concurrent callers;
thread 0 constructs, thread 1 takes the fast path; exactly one
construction happened and both received handle 0. -/
theorem c2_single_construction_witness :
    c2s8.constructions = 1 ∧
    ∀ t1 t2 r1 r2, c2s8.threads t1 = PC.done r1 → c2s8.threads t2 = PC.done r2 → r1 = r2 :=
  c2_single_construction c2s8 (by decide) c2_trace
    (fun t => ⟨0, by fin_cases t <;> rfl⟩)

/-- Counterexample to claim C4.  The claim says that after a probe
failure the next `getConnection()` returns a *different* handle object
and that no caller ever observes the stale one again.  In the code the
keep-alive probe catches the exception and only logs it, and
`SingletonSQLDatabase` never discards `_instance`: starting from a state
holding handle 0, after a failed probe the next `getConnection()` returns
the very same handle 0 and no new construction happens. -/
theorem c4_counterexample :
    (getConnection (keep_connection_alive false ⟨some 0, 1, 1⟩)).1 = 0 ∧
    keep_connection_alive false ⟨some 0, 1, 1⟩ = ⟨some 0, 1, 1⟩ :=
  ⟨rfl, rfl⟩

/-- Claim C4 as amended: after a session handle's health probe runs —
whatever its outcome — the next `getConnection()` call returns the *same*
handle object, and no new handle is constructed: the code has no
staleness detection or handle replacement. -/
theorem c4_amended_same_handle (m : Mgr) (h : Nat) (probeOk : Bool)
    (hm : m.handle? = some h) :
    (getConnection (keep_connection_alive probeOk m)).1 = h ∧
    (keep_connection_alive probeOk m).constructions = m.constructions := by
  simp [keep_connection_alive, getConnection, hm]

/-- Witness for C4 (amended): the failed-probe run on a live handle. -/
theorem c4_amended_same_handle_witness :
    (getConnection (keep_connection_alive false ⟨some 5, 6, 1⟩)).1 = 5 ∧
    (keep_connection_alive false ⟨some 5, 6, 1⟩).constructions = 1 :=
  c4_amended_same_handle ⟨some 5, 6, 1⟩ 5 false rfl

/-- Counterexample to claim C8.  The claim says `isRunning()` fails with
`StatusCheckError` whenever the status endpoint is unreachable or returns
a non-success code.  The code has no such error: a 500 response and a
transport exception both make `is_warehouse_running` return the ordinary
boolean `False`. -/
theorem c8_counterexample :
    is_warehouse_running (HttpResult.resp 500 none) = false ∧
    is_warehouse_running HttpResult.exn = false :=
  ⟨rfl, rfl⟩

/-- Claim C8 as amended: `isRunning()` always returns a boolean; on a 200
response it is the comparison of the reported state with "RUNNING"; any
non-200 status or transport error yields `false` (assume not running),
with no error reported to the caller. -/
theorem c8_amended_returns_false (s : Nat) (st : Option String) (hs : s ≠ 200) :
    is_warehouse_running (HttpResult.resp s st) = false ∧
    is_warehouse_running HttpResult.exn = false ∧
    is_warehouse_running (HttpResult.resp 200 st) = (st == some "RUNNING") := by
  refine ⟨?_, rfl, ?_⟩
  · simp [is_warehouse_running, hs]
  · simp [is_warehouse_running]

/-- Witness for C8 (amended): a 503 with a body state. -/
theorem c8_amended_returns_false_witness :
    is_warehouse_running (HttpResult.resp 503 (some "STOPPED")) = false ∧
    is_warehouse_running HttpResult.exn = false ∧
    is_warehouse_running (HttpResult.resp 200 (some "STOPPED")) =
      (some "STOPPED" == some "RUNNING") :=
  c8_amended_returns_false 503 (some "STOPPED") (by decide)

/-- Counterexample to claim C9.  The claim says `ensureRunning()`/`stop()`
fail with `LifecycleRequestError` on every non-2xx response or transport
error and that the cache is invalidated immediately after a start/stop
call.  In the code both functions swallow all errors (returning
normally), and `cache_clear()` runs only on a 200 response: a stop
request answered 500 leaves the cache `some true` untouched, and a failed
start leaves the freshly cached `some false` in place. -/
theorem c9_counterexample :
    stop_databricks_warehouse (HttpResult.resp 500 none) ⟨some true⟩ = ⟨some true⟩ ∧
    start_databricks_warehouse (HttpResult.resp 200 (some "STOPPED"))
        (HttpResult.resp 500 none) ⟨none⟩ = ⟨some false⟩ :=
  ⟨rfl, rfl⟩

/-- Claim C9 as amended: start/stop never fail — non-200 responses and
transport errors are logged and swallowed, leaving the status cache
unchanged; the cache is invalidated only when the POST returns status
exactly 200; and `start` skips the POST entirely when the cached status
reads running. -/
theorem c9_amended_swallows_errors :
    (∀ (s : Nat) (st : Option String) (c : WhCache), s ≠ 200 →
        stop_databricks_warehouse (HttpResult.resp s st) c = c) ∧
    (∀ c : WhCache, stop_databricks_warehouse HttpResult.exn c = c) ∧
    (∀ (st : Option String) (c : WhCache),
        stop_databricks_warehouse (HttpResult.resp 200 st) c = ⟨none⟩) ∧
    (∀ (statusR postR : HttpResult) (c : WhCache),
        (is_warehouse_running_cached statusR c).1 = true →
        start_databricks_warehouse statusR postR c =
          (is_warehouse_running_cached statusR c).2) ∧
    (∀ (statusR : HttpResult) (s : Nat) (st : Option String) (c : WhCache),
        (is_warehouse_running_cached statusR c).1 = false → s ≠ 200 →
        start_databricks_warehouse statusR (HttpResult.resp s st) c =
          (is_warehouse_running_cached statusR c).2) ∧
    (∀ (statusR : HttpResult) (c : WhCache),
        (is_warehouse_running_cached statusR c).1 = false →
        start_databricks_warehouse statusR HttpResult.exn c =
          (is_warehouse_running_cached statusR c).2) ∧
    (∀ (statusR : HttpResult) (st : Option String) (c : WhCache),
        (is_warehouse_running_cached statusR c).1 = false →
        start_databricks_warehouse statusR (HttpResult.resp 200 st) c = ⟨none⟩) := by
  refine ⟨?_, fun c => rfl, fun st c => rfl, ?_, ?_, ?_, ?_⟩
  · intro s st c hs
    simp [stop_databricks_warehouse, hs]
  · intro statusR postR c h
    simp [start_databricks_warehouse, h]
  · intro statusR s st c h hs
    simp [start_databricks_warehouse, h, hs]
  · intro statusR c h
    simp [start_databricks_warehouse, h]
  · intro statusR st c h
    simp [start_databricks_warehouse, h]

/-- Witness for C9 (amended): the swallowed 500 on stop, the
cache-preserving failed start, and the 200 invalidation. -/
theorem c9_amended_swallows_errors_witness :
    stop_databricks_warehouse (HttpResult.resp 500 none) ⟨some true⟩ = ⟨some true⟩ ∧
    start_databricks_warehouse HttpResult.exn (HttpResult.resp 500 none) ⟨some false⟩ =
      (is_warehouse_running_cached HttpResult.exn ⟨some false⟩).2 ∧
    stop_databricks_warehouse (HttpResult.resp 200 none) ⟨some true⟩ = ⟨none⟩ :=
  ⟨c9_amended_swallows_errors.1 500 none ⟨some true⟩ (by decide),
   c9_amended_swallows_errors.2.2.2.2.1 HttpResult.exn 500 none ⟨some false⟩ rfl (by decide),
   c9_amended_swallows_errors.2.2.1 none ⟨some true⟩⟩

end VendorIntel
